import Mathlib

/-!
Verification of the gamewithsangle tic-tac-toe room server
(src/app/xo/page.tsx route handlers, src/unnamed/part_001 room store
helpers, src/lib/mqtt-client.ts and the xo client reconciliation loop)
against its natural-language specification.

The embedding is shallow: the Mongo-backed room store becomes an explicit
`Store := String → Option XORoom` keyed by the raw `roomId` string
(`findOne({roomId})` is an exact string match), timestamps become `Nat`
ticks passed in as `now`, and every route handler becomes a pure function
`Store → args → Store × Except Error XORoom` so that "no mutation on
failure" is an actual statement about the returned store.
-/

namespace XO

/-- A tic-tac-toe symbol, the `"X" | "O"` union type of the source. -/
inductive Sym where
  | X
  | O
deriving DecidableEq

/-- Flip `"X"` to `"O"` and back: `turn === "X" ? "O" : "X"`. -/
def Sym.flip : Sym → Sym
  | .X => .O
  | .O => .X

/-- The value of the `winner` field when set: `"X" | "O" | "draw"`. -/
inductive Outcome where
  | sym (s : Sym)
  | draw
deriving DecidableEq

/-- The 3×3 board `(string | null)[][]`; a cell holds `null` or a symbol. -/
def Board := Fin 3 → Fin 3 → Option Sym

instance : DecidableEq Board := by
  unfold Board
  infer_instance

/-- Source `INITIAL_BOARD`: all nine cells `null`. -/
def initialBoard : Board := fun _ _ => none

/-- Writing one cell of the board (`board[row][col] = symbol`). -/
def setCell (b : Board) (i j : Fin 3) (v : Option Sym) : Board :=
  fun i' j' => if i' = i ∧ j' = j then v else b i' j'

/-- One `if (a && a === b && b === c) return a` step of `checkWinner`:
the line yields its symbol when its first cell is non-null and all three
cells are equal. -/
def lineWin (a b c : Option Sym) : Option Sym :=
  match a with
  | none => none
  | some s => if b = some s ∧ c = some s then some s else none

/-- Source `board.every((row) => row.every((cell) => cell !== null))`. -/
def boardFull (b : Board) : Bool :=
  decide (∀ i : Fin 3, ∀ j : Fin 3, b i j ≠ none)

/-- Function `checkWinner` from src/app/xo/page.tsx: rows 0..2, then columns 0..2,
then the two diagonals, each via `lineWin`, first hit wins; otherwise
`"draw"` when the board is full; otherwise `null`. -/
def checkWinner (b : Board) : Option Outcome :=
  match lineWin (b 0 0) (b 0 1) (b 0 2) with
  | some s => some (.sym s)
  | none =>
  match lineWin (b 1 0) (b 1 1) (b 1 2) with
  | some s => some (.sym s)
  | none =>
  match lineWin (b 2 0) (b 2 1) (b 2 2) with
  | some s => some (.sym s)
  | none =>
  match lineWin (b 0 0) (b 1 0) (b 2 0) with
  | some s => some (.sym s)
  | none =>
  match lineWin (b 0 1) (b 1 1) (b 2 1) with
  | some s => some (.sym s)
  | none =>
  match lineWin (b 0 2) (b 1 2) (b 2 2) with
  | some s => some (.sym s)
  | none =>
  match lineWin (b 0 0) (b 1 1) (b 2 2) with
  | some s => some (.sym s)
  | none =>
  match lineWin (b 0 2) (b 1 1) (b 2 0) with
  | some s => some (.sym s)
  | none => if boardFull b then some .draw else none

/-- Spec-side predicate, from the spec's words: one of the 8 lines
(3 rows, 3 columns, 2 diagonals) is filled with the symbol `s`. -/
def specLineFilled (b : Board) (s : Sym) : Prop :=
  (b 0 0 = some s ∧ b 0 1 = some s ∧ b 0 2 = some s) ∨
  (b 1 0 = some s ∧ b 1 1 = some s ∧ b 1 2 = some s) ∨
  (b 2 0 = some s ∧ b 2 1 = some s ∧ b 2 2 = some s) ∨
  (b 0 0 = some s ∧ b 1 0 = some s ∧ b 2 0 = some s) ∨
  (b 0 1 = some s ∧ b 1 1 = some s ∧ b 2 1 = some s) ∨
  (b 0 2 = some s ∧ b 1 2 = some s ∧ b 2 2 = some s) ∨
  (b 0 0 = some s ∧ b 1 1 = some s ∧ b 2 2 = some s) ∨
  (b 0 2 = some s ∧ b 1 1 = some s ∧ b 2 0 = some s)

instance (b : Board) (s : Sym) : Decidable (specLineFilled b s) := by
  unfold specLineFilled
  infer_instance

lemma lineWin_eq_some {a b c : Option Sym} {s : Sym} :
    lineWin a b c = some s ↔ a = some s ∧ b = some s ∧ c = some s := by
  constructor
  · intro h
    cases a with
    | none => simp [lineWin] at h
    | some t =>
      by_cases hbc : b = some t ∧ c = some t
      · simp [lineWin, hbc] at h
        subst h
        exact ⟨rfl, hbc⟩
      · simp [lineWin, hbc] at h
  · rintro ⟨rfl, hb, hc⟩
    simp [lineWin, hb, hc]

lemma lineWin_eq_none {a b c : Option Sym} :
    lineWin a b c = none ↔ ∀ s : Sym, ¬(a = some s ∧ b = some s ∧ c = some s) := by
  constructor
  · intro h s hs
    rw [lineWin_eq_some.mpr hs] at h
    exact Option.noConfusion h
  · intro h
    cases hh : lineWin a b c with
    | none => rfl
    | some t => exact absurd (lineWin_eq_some.mp hh) (h t)

lemma checkWinner_sym_sound (b : Board) (t : Sym) :
    checkWinner b = some (.sym t) → specLineFilled b t := by
  intro h
  unfold checkWinner at h
  repeat' split at h
  all_goals simp_all [specLineFilled, lineWin_eq_some]

lemma checkWinner_draw_sound (b : Board) :
    checkWinner b = some .draw → (∀ s, ¬ specLineFilled b s) ∧ boardFull b = true := by
  intro h
  unfold checkWinner at h
  repeat' split at h
  all_goals simp_all [specLineFilled, lineWin_eq_none]

lemma checkWinner_none_sound (b : Board) :
    checkWinner b = none → (∀ s, ¬ specLineFilled b s) ∧ boardFull b = false := by
  intro h
  unfold checkWinner at h
  repeat' split at h
  all_goals simp_all [specLineFilled, lineWin_eq_none]

/-! ## Data model: players, room documents, the room store -/

/-- JS `toLowerCase()`: per-character lowercasing. (Defined over the
character list so the kernel can evaluate it on concrete strings.) -/
def toLowerStr (s : String) : String := ⟨s.data.map Char.toLower⟩

/-- JS `toUpperCase()`: per-character uppercasing. -/
def toUpperStr (s : String) : String := ⟨s.data.map Char.toUpper⟩

/-- JS `trim()`: strip leading and trailing whitespace. -/
def trimStr (s : String) : String :=
  ⟨((s.data.dropWhile Char.isWhitespace).reverse.dropWhile Char.isWhitespace).reverse⟩

/-- Helper `normalize`, defined identically in the route file and the store
helpers: `value.trim().toLowerCase()`. -/
def normalize (value : String) : String := toLowerStr (trimStr value)

/-- An xo seat: `Player & { symbol: "X" | "O" }` with optional avatar. -/
structure XOPlayer where
  name : String
  symbol : Sym
  avatar : Option String := none
deriving DecidableEq

/-- The `XORoom` document: `BaseGameRoom` base fields plus the xo-specific
`board`, `turn`, `roundIndex`, optional `winner` and `lastMoveBy`.
Timestamps are abstract `Nat` ticks. The fixed `gameType` `"xo"` selects
the collection and is not repeated per document here. -/
structure XORoom where
  roomId : String
  players : List XOPlayer
  maxPlayers : Nat
  board : Board
  turn : Sym
  roundIndex : Nat
  winner : Option Outcome := none
  lastMoveBy : Option String := none
  createdAt : Nat
  updatedAt : Nat
deriving DecidableEq

instance {ε α : Type} [DecidableEq ε] [DecidableEq α] : DecidableEq (Except ε α) :=
  fun a b =>
    match a, b with
    | .ok x, .ok y =>
      if h : x = y then isTrue (by rw [h])
      else isFalse (by intro hc; cases hc; exact h rfl)
    | .error x, .error y =>
      if h : x = y then isTrue (by rw [h])
      else isFalse (by intro hc; cases hc; exact h rfl)
    | .ok _, .error _ => isFalse (by intro hc; cases hc)
    | .error _, .ok _ => isFalse (by intro hc; cases hc)

/-- The Mongo collection for one game type, as a key-value map: `findOne
({ roomId })` is an exact match on the stored `roomId` string. -/
def Store := String → Option XORoom

/-- Mongo `updateOne({roomId}, ..., {upsert:true})` at the whole-document level. -/
def Store.set (store : Store) (roomId : String) (room : XORoom) : Store :=
  fun k => if k = roomId then some room else store k

/-- Function `getRoom` from the store helpers: `col.findOne({ roomId })`. -/
def getRoom (store : Store) (roomId : String) : Option XORoom := store roomId

/-- Function `createRoom` from the store helpers, at the xo call site
(`playerData = { symbol, avatar }`, `initialRoomData = { board, turn,
roundIndex }`). The upserted `$set` document carries every field listed in
`newRoom`; `winner` and `lastMoveBy` are not among them, so an existing
document keeps its values and a fresh document starts without them.
`createdAt` is `existing?.createdAt ?? now`; `updatedAt` is `now`. -/
def createRoom (store : Store) (roomId playerName : String) (symbol : Sym)
    (avatar : Option String) (maxPlayers : Nat) (board : Board) (turn : Sym)
    (roundIndex : Nat) (now : Nat) : Store × XORoom :=
  let existing := store roomId
  let player : XOPlayer := { name := playerName, symbol := symbol, avatar := avatar }
  let stored : XORoom :=
    { roomId := roomId
      players := [player]
      maxPlayers := maxPlayers
      createdAt := (existing.map (fun r => r.createdAt)).getD now
      updatedAt := now
      board := board
      turn := turn
      roundIndex := roundIndex
      winner := (existing.map (fun r => r.winner)).getD none
      lastMoveBy := (existing.map (fun r => r.lastMoveBy)).getD none }
  (store.set roomId stored, stored)

/-- Errors thrown by `joinRoom` / returned by the join route. -/
inductive JoinError where
  | notFound
  | full
deriving DecidableEq

/-- Function `joinRoom` from the store helpers, at the xo call site (`playerData =
{ symbol, avatar }`, no `assignColor` callback): throw NotFound if the
room is absent; throw Full when `players.length >= maxPlayers`; if a
player with the same normalized name is already seated, write nothing and
return the room; otherwise append the new player and refresh
`updatedAt`. -/
def joinRoom (store : Store) (roomId playerName : String) (symbol : Sym)
    (avatar : Option String) (now : Nat) : Store × Except JoinError XORoom :=
  match store roomId with
  | none => (store, .error .notFound)
  | some room =>
    if room.players.length ≥ room.maxPlayers then
      (store, .error .full)
    else
      match room.players.find? (fun p => normalize p.name == normalize playerName) with
      | some _ => (store, .ok room)
      | none =>
        let players' := room.players ++
          [{ name := playerName, symbol := symbol, avatar := avatar }]
        let room' := { room with players := players', updatedAt := now }
        (store.set roomId room', .ok room')

/-- Function `updateRoom` from the store helpers: `$set { ...updates, updatedAt:
now }` against `findOne({ roomId })`; when the room is absent the
`updateOne` matches nothing and the trailing `findOne` turns into the
"Room không tồn tại" error without any write. `updates` is the partial
field overwrite computed by the caller. -/
def updateRoom (store : Store) (roomId : String) (updates : XORoom → XORoom)
    (now : Nat) : Store × Option XORoom :=
  match store roomId with
  | none => (store, none)
  | some room =>
    let room' := { updates room with updatedAt := now }
    (store.set roomId room', some room')

/-! ## The POST route handlers of src/app/xo/page.tsx -/

/-- Rejections of the move action, one per early-return of the handler.
In the spec's taxonomy `outOfRange`, `occupied` and `notSeated` are all
`InvalidMove` (HTTP 400), `wrongTurn` is `TurnViolation` (400),
`notFound` is `NotFound` (404). The handler has no terminal-state
rejection, so no such constructor exists. -/
inductive MoveError where
  | notFound
  | outOfRange
  | occupied
  | notSeated
  | wrongTurn
deriving DecidableEq

/-- Route `POST { action: "create" }`: uppercase the supplied roomId, read the
existing document's `roundIndex` (default 0), give the creator `"X"` on
even rounds and `"O"` on odd rounds, and upsert via `createRoom` with a
fresh initial board, turn `"X"` and the preserved `roundIndex`. -/
def handleCreate (store : Store) (roomIdArg playerName : String)
    (avatar : Option String) (now : Nat) : Store × XORoom :=
  let roomId := toUpperStr roomIdArg
  let existing := getRoom store roomId
  let roundIndex : Nat := (existing.map (fun r => r.roundIndex)).getD 0
  let firstSymbol := if roundIndex % 2 = 0 then Sym.X else Sym.O
  createRoom store roomId playerName firstSymbol avatar 2 initialBoard Sym.X
    roundIndex now

/-- Function `assignSymbol` from the join handler: an empty roster seats by
round-index parity, a single seated player gives the joiner the opposite
symbol, and two or more yield `undefined`. -/
def assignSymbol (roundIndex : Nat) (players : List XOPlayer) : Option Sym :=
  match players with
  | [] => some (if roundIndex % 2 = 0 then Sym.X else Sym.O)
  | [firstPlayer] => some (if firstPlayer.symbol = Sym.X then Sym.O else Sym.X)
  | _ => none

/-- Route `POST { action: "join" }`: uppercase the supplied roomId, 404 when the
room is absent, 403 Full when the roster already holds `MAX_PLAYERS` (2),
otherwise compute the joiner's symbol with `assignSymbol` and delegate to
`joinRoom`. Under the Full guard the roster has at most one player, so
`assignSymbol` always yields a symbol; `.getD .X` stands for the
`symbol as "X" | "O"` cast on that unreachable branch. -/
def handleJoin (store : Store) (roomIdArg playerName : String)
    (avatar : Option String) (now : Nat) : Store × Except JoinError XORoom :=
  let roomId := toUpperStr roomIdArg
  match getRoom store roomId with
  | none => (store, .error .notFound)
  | some existingRoom =>
    if existingRoom.players.length ≥ 2 then
      (store, .error .full)
    else
      let symbol :=
        (assignSymbol existingRoom.roundIndex existingRoom.players).getD Sym.X
      joinRoom store roomId playerName symbol avatar now

/-- Route `POST { action: "move" }`: the supplied roomId is used verbatim (no
uppercasing). Checks, in source order: room exists; `row`/`col` within
the 3×3 grid; target cell empty; actor seated (normalized name match);
actor's symbol equals `turn`. On success place the symbol, recompute the
winner with `checkWinner`, keep `turn` when the position is terminal and
flip it otherwise, and write through `updateRoom`. -/
def handleMove (store : Store) (roomId : String) (row col : Int)
    (playerName : String) (now : Nat) : Store × Except MoveError XORoom :=
  match getRoom store roomId with
  | none => (store, .error .notFound)
  | some room =>
    if h : row < 0 ∨ 3 ≤ row ∨ col < 0 ∨ 3 ≤ col then
      (store, .error .outOfRange)
    else
      let i : Fin 3 := ⟨row.toNat, by omega⟩
      let j : Fin 3 := ⟨col.toNat, by omega⟩
      if room.board i j ≠ none then
        (store, .error .occupied)
      else
        match room.players.find? (fun p => normalize p.name == normalize playerName) with
        | none => (store, .error .notSeated)
        | some player =>
          if room.turn ≠ player.symbol then
            (store, .error .wrongTurn)
          else
            let board' := setCell room.board i j (some player.symbol)
            let winner := checkWinner board'
            let nextTurn := room.turn.flip
            match updateRoom store roomId
              (fun r =>
                { r with
                  board := board'
                  turn := if winner.isSome then room.turn else nextTurn
                  winner := winner
                  lastMoveBy := some playerName }) now with
            | (store', some r) => (store', .ok r)
            | (store', none) => (store', .error .notFound)

/-- Route `POST { action: "finish" }`: the supplied roomId is used verbatim (no
uppercasing). 404 when absent; otherwise bump `roundIndex`, flip every
seated player's symbol, and write a reset document (initial board, turn
`"X"`, cleared `winner` and `lastMoveBy`) through `updateRoom`. -/
def handleFinish (store : Store) (roomId : String) (now : Nat) :
    Store × Except MoveError XORoom :=
  match getRoom store roomId with
  | none => (store, .error .notFound)
  | some room =>
    let nextRound := room.roundIndex + 1
    let swappedPlayers :=
      room.players.map (fun p => { p with symbol := p.symbol.flip })
    match updateRoom store roomId
      (fun r =>
        { r with
          board := initialBoard
          turn := Sym.X
          roundIndex := nextRound
          players := swappedPlayers
          winner := none
          lastMoveBy := none }) now with
    | (store', some r) => (store', .ok r)
    | (store', none) => (store', .error .notFound)

/-! ## Client Reconciliation Loop (xo page client + mqtt-client.ts) -/

/-- Symbols `"X"` / `"O"` as displayed text. -/
def Sym.text : Sym → String
  | .X => "X"
  | .O => "O"

/-- The client-side `RoomState` payload carried by relay events: `board`,
`turn`, `roundIndex` and `winner` are optional fields. -/
structure RoomPayload where
  roomId : String
  players : List XOPlayer
  board : Option Board := none
  turn : Option Sym := none
  roundIndex : Option Nat := none
  winner : Option Outcome := none
deriving DecidableEq

/-- The React state of one xo session that the message handler and the
cell-click handler touch. -/
structure ClientState where
  playerName : String
  clientId : String
  currentRoomId : String
  inputRoomId : String
  playerSymbol : Sym
  turn : Sym
  board : Board
  roomState : Option RoomPayload := none
  gameStatus : String
  onlineClients : Finset String

/-- JavaScript truthiness of an optional string: absent and `""` are
falsy. -/
def strTruthy (o : Option String) : Bool :=
  match o with
  | none => false
  | some s => !(s == "")

/-- Function `updateGameStatus`: draw beats win beats turn display. -/
def updateGameStatus (room : RoomPayload) : String :=
  match room.winner with
  | some .draw => "Ván đấu hoà!"
  | some (.sym s) => s.text ++ " giành chiến thắng!"
  | none =>
    match room.turn with
    | some t => "Tới lượt " ++ t.text
    | none => "Đang chờ người chơi..."

/-- Function `syncRoomState`: a null room is ignored; otherwise overwrite
`roomState` and the room id fields, adopt the own seat symbol when the
roster contains the session's player name, overwrite board and turn when
the payload carries them, and refresh the status line. -/
def syncRoomState (st : ClientState) (roomArg : Option RoomPayload) : ClientState :=
  match roomArg with
  | none => st
  | some room =>
    let st1 := { st with
      roomState := some room
      currentRoomId := room.roomId
      inputRoomId := room.roomId }
    let st2 :=
      match room.players.find? (fun p => normalize p.name == normalize st.playerName) with
      | some me => { st1 with playerSymbol := me.symbol }
      | none => st1
    let st3 :=
      match room.board with
      | some b => { st2 with board := b }
      | none => st2
    let st4 :=
      match room.turn with
      | some t => { st3 with turn := t }
      | none => st3
    { st4 with gameStatus := updateGameStatus room }

/-- Function `hydrateFromRoom`: reset board and turn to the payload's values or to
the initial position, then run `syncRoomState`. -/
def hydrateFromRoom (st : ClientState) (roomArg : Option RoomPayload) : ClientState :=
  let b := (roomArg.bind (fun r => r.board)).getD initialBoard
  let t := (roomArg.bind (fun r => r.turn)).getD Sym.X
  syncRoomState { st with board := b, turn := t } roomArg

/-- An inbound relay event as seen by `handleMQTTMessage`: `type`,
`clientId` and `action` are optional string fields; `hasRow` is the
`"row" in message` test, `hasRoomField` the `"room" in message` test, and
`room` the (possibly null) room field value. -/
structure RelayMsg where
  type : Option String := none
  clientId : Option String := none
  action : Option String := none
  hasRow : Bool := false
  hasRoomField : Bool := false
  room : Option RoomPayload := none

/-- Function `handleMQTTMessage` from the xo page: drop self-originated events
(truthy clientId equal to the session's own), ignore typeless events,
track presence connect/disconnect and last-will disconnects, and merge
`move` / `room` / `reset` events through `syncRoomState` /
`hydrateFromRoom`. -/
def handleMQTTMessage (st : ClientState) (msg : RelayMsg) : ClientState :=
  if strTruthy msg.clientId ∧ msg.clientId = some st.clientId then st
  else if ¬ strTruthy msg.type then st
  else if msg.type = some "presence" ∧ strTruthy msg.clientId then
    match msg.clientId, msg.action with
    | some cid, some "connect" =>
      { st with onlineClients := insert cid st.onlineClients }
    | some cid, some "disconnect" =>
      { st with onlineClients := st.onlineClients.erase cid }
    | _, _ => st
  else if msg.type = some "disconnect" ∧ strTruthy msg.clientId then
    match msg.clientId with
    | some cid => { st with onlineClients := st.onlineClients.erase cid }
    | none => st
  else if msg.type = some "move" ∧ msg.hasRow then
    match msg.room with
    | some r => syncRoomState st (some r)
    | none => st
  else if msg.type = some "room" ∧ msg.hasRoomField then
    syncRoomState st msg.room
  else if msg.type = some "reset" ∧ msg.hasRoomField then
    hydrateFromRoom st msg.room
  else st

/-- What `handleCellClick` decides before any network call. -/
inductive ClickAction where
  | blocked
  | sendMove (roomId : String) (row col : Fin 3) (playerName : String)
deriving DecidableEq

/-- The early-return chain of `handleCellClick`, in source order:
`canPlay` (non-empty player name and current room id), target cell not
occupied, own turn, and no winner recorded in `roomState`; only then is
the move request issued. -/
def handleCellClick (st : ClientState) (row col : Fin 3) : ClickAction :=
  if ¬ (st.playerName ≠ "" ∧ st.currentRoomId ≠ "") then .blocked
  else if st.board row col ≠ none then .blocked
  else if st.turn ≠ st.playerSymbol then .blocked
  else if (st.roomState.bind (fun r => r.winner)).isSome then .blocked
  else .sendMove st.currentRoomId row col st.playerName

/-! ## Concrete fixtures for counterexamples and witnesses -/

/-- The spec's example board `[["X","X",null],["O","O",null],[null,null,null]]`. -/
def c6Board : Board := fun i j =>
  if i = 0 ∧ j = 0 then some .X else if i = 0 ∧ j = 1 then some .X
  else if i = 1 ∧ j = 0 then some .O else if i = 1 ∧ j = 1 then some .O
  else none

/-- A board whose top row is filled with `"X"`. -/
def xRowBoard : Board := fun i _ => if i = 0 then some Sym.X else none

/-- A full board with no three-in-a-row: X O X / X O O / O X X. -/
def drawBoard : Board := fun i j =>
  if i = 0 then (if j = 0 then some .X else if j = 1 then some .O else some .X)
  else if i = 1 then (if j = 0 then some .X else if j = 1 then some .O else some .O)
  else (if j = 0 then some .O else if j = 1 then some .X else some .X)

/-- Top row `"X"` with two `"O"` replies: a position `"X"` has just won. -/
def wonBoard : Board := fun i j =>
  if i = 0 then some .X
  else if i = 1 ∧ (j = 0 ∨ j = 1) then some .O
  else none

def alice : XOPlayer := { name := "alice", symbol := .X }

def bob : XOPlayer := { name := "bob", symbol := .O }

/-- A terminal room: `"X"` (alice) has completed the top row, `winner` is
set, and `turn` was left on `"X"` by the winning move. -/
def termRoom : XORoom :=
  { roomId := "T1", players := [alice, bob], maxPlayers := 2,
    board := wonBoard, turn := .X, roundIndex := 0,
    winner := some (.sym .X), lastMoveBy := some "alice",
    createdAt := 0, updatedAt := 4 }

def termStore : Store := fun k => if k = "T1" then some termRoom else none

/-- The document the move handler writes when alice plays (2,2) on the
already-won room: the new mark is placed, `winner` recomputed (still
`"X"`), `turn` preserved because the position is terminal. -/
def termRoomAfter : XORoom :=
  { termRoom with
    board := setCell wonBoard 2 2 (some .X),
    lastMoveBy := some "alice", updatedAt := 9 }

/-- A drawn room: board full, `winner` recorded as `"draw"`. -/
def drawRoom : XORoom :=
  { roomId := "D1", players := [alice, bob], maxPlayers := 2,
    board := drawBoard, turn := .X, roundIndex := 0,
    winner := some .draw, lastMoveBy := some "bob",
    createdAt := 0, updatedAt := 8 }

def drawStore : Store := fun k => if k = "D1" then some drawRoom else none

/-- A room holding both seats, stored (as every room the app creates is)
under an uppercase key. -/
def fullRoom : XORoom :=
  { roomId := "AB", players := [alice, bob], maxPlayers := 2,
    board := initialBoard, turn := .X, roundIndex := 0,
    createdAt := 0, updatedAt := 2 }

def fullStore : Store := fun k => if k = "AB" then some fullRoom else none

/-- A room with only alice seated. -/
def oneRoom : XORoom :=
  { roomId := "CD", players := [alice], maxPlayers := 2,
    board := initialBoard, turn := .X, roundIndex := 0,
    createdAt := 0, updatedAt := 1 }

def oneStore : Store := fun k => if k = "CD" then some oneRoom else none

/-- A room whose `roundIndex` is 1, as after one `finish()`. -/
def roundOneRoom : XORoom :=
  { roomId := "R1", players := [alice, bob], maxPlayers := 2,
    board := initialBoard, turn := .X, roundIndex := 1,
    createdAt := 0, updatedAt := 3 }

def roundOneStore : Store := fun k => if k = "R1" then some roundOneRoom else none

/-- The empty store. -/
def emptyStore : Store := fun _ => none

/-- A session state attached to room "AB" as alice with clientId "c1". -/
def cClient : ClientState :=
  { playerName := "alice", clientId := "c1", currentRoomId := "AB",
    inputRoomId := "AB", playerSymbol := .X, turn := .X,
    board := initialBoard, roomState := none, gameStatus := "",
    onlineClients := ∅ }

/-- A `room` relay event carrying the receiver's own clientId; were it
not dropped it would overwrite `currentRoomId` with "ZZ". -/
def selfMsg : RelayMsg :=
  { type := some "room", clientId := some "c1", hasRoomField := true,
    room := some { roomId := "ZZ", players := [] } }

/-- The session state once a winner is recorded in `roomState`; the board
cell (2,2) is free and it is the session's own turn, so only the
winner guard blocks a click there. -/
def cClientWon : ClientState :=
  { cClient with
    board := wonBoard,
    roomState := some
      { roomId := "AB", players := [alice, bob], board := some wonBoard,
        turn := some .X, winner := some (.sym .X) } }

/-! ## Claim theorems -/

/-- C6: for every 3×3 board, `checkWinner` returns a symbol exactly when
that symbol fills one of the 8 lines (3 rows, 3 columns, 2 diagonals);
with no filled line it returns `"draw"` exactly when all 9 cells are
filled and `null` otherwise; and placing `"X"` at (0,2) on the board
`[["X","X",null],["O","O",null],[null,null,null]]` yields winner `"X"`. -/
theorem checkWinner_matches_spec :
    (∀ b : Board,
      ((∃ s, specLineFilled b s) →
        ∃ t, checkWinner b = some (.sym t) ∧ specLineFilled b t) ∧
      ((∀ s, ¬ specLineFilled b s) →
        checkWinner b = (if boardFull b then some .draw else none))) ∧
    checkWinner (setCell c6Board 0 2 (some .X)) = some (.sym .X) := by
  constructor
  · intro b
    constructor
    · intro hex
      cases o : checkWinner b with
      | none =>
        obtain ⟨s, hs⟩ := hex
        exact absurd hs ((checkWinner_none_sound b o).1 s)
      | some out =>
        cases out with
        | draw =>
          obtain ⟨s, hs⟩ := hex
          exact absurd hs ((checkWinner_draw_sound b o).1 s)
        | sym t => exact ⟨t, rfl, checkWinner_sym_sound b t o⟩
    · intro hno
      cases o : checkWinner b with
      | none =>
        rw [(checkWinner_none_sound b o).2]
        rfl
      | some out =>
        cases out with
        | draw =>
          rw [(checkWinner_draw_sound b o).2]
          rfl
        | sym t => exact absurd (checkWinner_sym_sound b t o) (hno t)
  · decide

/-- Witness for C6: on the board with a filled `"X"` top row the winner
branch applies, and on the full no-line board the draw branch applies. -/
theorem checkWinner_matches_spec_witness :
    (∃ t, checkWinner xRowBoard = some (.sym t) ∧ specLineFilled xRowBoard t) ∧
    checkWinner drawBoard = (if boardFull drawBoard then some .draw else none) :=
  ⟨(checkWinner_matches_spec.1 xRowBoard).1 ⟨.X, by decide⟩,
   (checkWinner_matches_spec.1 drawBoard).2 (by intro s; cases s <;> decide)⟩

/-- C8: an inbound relay event whose clientId equals the receiving
session's own (necessarily non-empty) clientId is dropped by
`handleMQTTMessage`: the local state is returned unchanged. -/
theorem selfEcho_dropped :
    ∀ (st : ClientState) (msg : RelayMsg),
      st.clientId ≠ "" → msg.clientId = some st.clientId →
      handleMQTTMessage st msg = st := by
  intro st msg hne h
  have ht : strTruthy msg.clientId = true := by
    rw [h]
    simp [strTruthy, hne]
  unfold handleMQTTMessage
  rw [if_pos ⟨ht, h⟩]

/-- Witness for C8: the concrete self-addressed `room` event is dropped;
had it been applied, `syncRoomState` would have set `currentRoomId` to
"ZZ". -/
theorem selfEcho_dropped_witness :
    cClient.clientId ≠ "" ∧ handleMQTTMessage cClient selfMsg = cClient :=
  ⟨by decide, selfEcho_dropped cClient selfMsg (by decide) rfl⟩

/-- C1 counterexample: on the terminal room (winner `"X"` recorded,
`turn` left on `"X"`), alice's move at the empty cell (2,2) is NOT
rejected — the handler returns 200 with an updated document whose cell
(2,2) now holds `"X"`, so the room is mutated after the winner was set. -/
theorem move_after_winner_accepted :
    (handleMove termStore "T1" 2 2 "alice" 9).2 = .ok termRoomAfter ∧
    (handleMove termStore "T1" 2 2 "alice" 9).1 "T1" = some termRoomAfter ∧
    termRoomAfter.board 2 2 ≠ termRoom.board 2 2 := by
  refine ⟨by decide, by decide, by decide⟩

/-- C1 amended: the server move handler has no terminal-state check, so
a move on a winner-set room can be accepted (see the counterexample);
post-win moves are prevented only client-side: whenever a winner is
recorded in the session's `roomState`, `handleCellClick` blocks before
issuing any move request. -/
theorem cellClick_blocked_after_winner :
    ∀ (st : ClientState) (row col : Fin 3),
      (st.roomState.bind (fun r => r.winner)).isSome →
      handleCellClick st row col = .blocked := by
  intro st row col h
  unfold handleCellClick
  split_ifs with h1 h2 h3 <;> rfl

/-- Witness for the C1 amendment: in the concrete post-win session the
cell (2,2) is free and it is the session's turn, yet the click is
blocked by the winner guard. -/
theorem cellClick_blocked_after_winner_witness :
    (cClientWon.roomState.bind (fun r => r.winner)).isSome = true ∧
    handleCellClick cClientWon 2 2 = .blocked :=
  ⟨by decide, cellClick_blocked_after_winner cClientWon 2 2 (by decide)⟩

/-- Reduction of `handleMove` once the room is found and the target is
named by in-range indices: the remaining behavior is the occupied /
seated / turn cascade followed by the write. -/
lemma handleMove_found (store : Store) (roomId : String) (room : XORoom)
    (i j : Fin 3) (pn : String) (now : Nat)
    (hsome : getRoom store roomId = some room) :
    handleMove store roomId (i.val : Int) (j.val : Int) pn now =
      (if room.board i j ≠ none then (store, .error .occupied)
       else
         match room.players.find? (fun p => normalize p.name == normalize pn) with
         | none => (store, .error .notSeated)
         | some player =>
           if room.turn ≠ player.symbol then (store, .error .wrongTurn)
           else
             let board' := setCell room.board i j (some player.symbol)
             let winner := checkWinner board'
             let room' : XORoom :=
               { room with
                 board := board'
                 turn := if winner.isSome then room.turn else room.turn.flip
                 winner := winner
                 lastMoveBy := some pn
                 updatedAt := now }
             (store.set roomId room', .ok room')) := by
  have hi := i.isLt
  have hj := j.isLt
  have hsome' : store roomId = some room := hsome
  unfold handleMove
  simp only [hsome]
  rw [dif_neg (by omega)]
  simp only [Int.toNat_natCast, Fin.eta, updateRoom, hsome']

/-- C2 amended: the move handler checks, in this order with first
failure winning and no store mutation on failure: room exists
(`NotFound`); target inside the 3×3 grid (`InvalidMove`); target cell
empty (`InvalidMove`); actor seated (`InvalidMove`); actor's seat's turn
(`TurnViolation`). There is no terminal-state check: when all five pass
the move is accepted and written, whatever the `winner` field holds. -/
theorem move_precondition_order :
    ∀ (store : Store) (roomId : String) (row col : Int) (pn : String) (now : Nat),
      (getRoom store roomId = none →
        handleMove store roomId row col pn now = (store, .error .notFound)) ∧
      (∀ room, getRoom store roomId = some room →
        ((row < 0 ∨ 3 ≤ row ∨ col < 0 ∨ 3 ≤ col) →
          handleMove store roomId row col pn now = (store, .error .outOfRange)) ∧
        (∀ i j : Fin 3, row = (i.val : Int) → col = (j.val : Int) →
          (room.board i j ≠ none →
            handleMove store roomId row col pn now = (store, .error .occupied)) ∧
          (room.board i j = none →
            (room.players.find? (fun p => normalize p.name == normalize pn) = none →
              handleMove store roomId row col pn now = (store, .error .notSeated)) ∧
            (∀ player,
              room.players.find? (fun p => normalize p.name == normalize pn)
                = some player →
              (room.turn ≠ player.symbol →
                handleMove store roomId row col pn now = (store, .error .wrongTurn)) ∧
              (room.turn = player.symbol →
                ∃ room', handleMove store roomId row col pn now
                  = (store.set roomId room', .ok room')))))) := by
  intro store roomId row col pn now
  constructor
  · intro h
    unfold handleMove
    simp only [h]
  · intro room hsome
    constructor
    · intro hrange
      unfold handleMove
      simp only [hsome]
      rw [dif_pos hrange]
    · intro i j hrow hcol
      subst hrow
      subst hcol
      rw [handleMove_found store roomId room i j pn now hsome]
      constructor
      · intro hocc
        rw [if_pos hocc]
      · intro hempty
        rw [if_neg (fun hc => hc hempty)]
        constructor
        · intro hfind
          rw [hfind]
        · intro player hfind
          simp only [hfind]
          constructor
          · intro hturn
            rw [if_pos hturn]
          · intro hturn
            rw [if_neg (fun hc => hc hturn)]
            exact ⟨_, rfl⟩

/-- Witness for the C2 amendment, exercising every branch on concrete
rooms: absent room, out-of-range target, occupied cell (on the drawn
room), unseated actor, wrong turn, and an accepted move. -/
theorem move_precondition_order_witness :
    handleMove emptyStore "ZZ" 0 0 "alice" 9 = (emptyStore, .error .notFound) ∧
    handleMove drawStore "D1" 5 0 "alice" 9 = (drawStore, .error .outOfRange) ∧
    handleMove drawStore "D1" 0 0 "alice" 9 = (drawStore, .error .occupied) ∧
    handleMove fullStore "AB" 0 0 "carol" 9 = (fullStore, .error .notSeated) ∧
    handleMove fullStore "AB" 0 0 "bob" 9 = (fullStore, .error .wrongTurn) ∧
    ∃ room', handleMove fullStore "AB" 0 0 "alice" 9
      = (fullStore.set "AB" room', .ok room') := by
  refine ⟨?_, ?_, ?_, ?_, ?_, ?_⟩
  · exact (move_precondition_order emptyStore "ZZ" 0 0 "alice" 9).1 rfl
  · exact ((move_precondition_order drawStore "D1" 5 0 "alice" 9).2 drawRoom rfl).1
      (by omega)
  · exact ((((move_precondition_order drawStore "D1" 0 0 "alice" 9).2 drawRoom
      rfl).2 0 0 rfl rfl).1 (by decide))
  · exact (((((move_precondition_order fullStore "AB" 0 0 "carol" 9).2 fullRoom
      rfl).2 0 0 rfl rfl).2 (by decide)).1 (by decide))
  · exact ((((((move_precondition_order fullStore "AB" 0 0 "bob" 9).2 fullRoom
      rfl).2 0 0 rfl rfl).2 (by decide)).2 bob (by decide)).1 (by decide))
  · exact ((((((move_precondition_order fullStore "AB" 0 0 "alice" 9).2 fullRoom
      rfl).2 0 0 rfl rfl).2 (by decide)).2 alice (by decide)).2 (by decide))

/-- C2 counterexample: on the drawn room (terminal, actor alice seated)
the claimed order would reject alice's move at the occupied cell (0,0)
with `TerminalState` (the terminal check is claimed to precede target
legality), but the handler rejects it with the occupied-cell
`InvalidMove` — the handler has no terminal check at all. The store is
left unchanged at the key. -/
theorem move_order_counterexample :
    (handleMove drawStore "D1" 0 0 "alice" 9).2 = .error .occupied ∧
    MoveError.occupied ≠ MoveError.notFound ∧
    (handleMove drawStore "D1" 0 0 "alice" 9).1 "D1" = some drawRoom := by
  refine ⟨by decide, by decide, by decide⟩

/-- C3 counterexample: the Full check runs before the reconnect check, so
a join by "ALICE" — already seated (case-insensitively) in the full room —
is rejected with `Full` instead of returning the room unchanged. -/
theorem join_full_reconnect_rejected :
    (∃ p ∈ fullRoom.players, normalize p.name = normalize "ALICE") ∧
    (handleJoin fullStore "AB" "ALICE" none 9).2 = .error .full := by
  exact ⟨⟨alice, by decide, by decide⟩, by decide⟩

/-- C3 amended: on a room that is not yet full (fewer seated players than
both `MAX_PLAYERS` = 2 and the document's own `maxPlayers`), a join with
a playerName already present (case-insensitive) returns the room
unchanged and writes nothing — reconnect is idempotent below capacity. -/
theorem join_reconnect_idempotent :
    ∀ (store : Store) (raw pn : String) (avatar : Option String) (now : Nat)
      (room : XORoom),
      getRoom store (toUpperStr raw) = some room →
      room.players.length < 2 →
      room.players.length < room.maxPlayers →
      (∃ p ∈ room.players, normalize p.name = normalize pn) →
      handleJoin store raw pn avatar now = (store, .ok room) := by
  intro store raw pn av now room hget hlt2 hltm hex
  have hget' : store (toUpperStr raw) = some room := hget
  unfold handleJoin
  simp only [hget]
  rw [if_neg (by omega)]
  unfold joinRoom
  simp only [hget']
  rw [if_neg (by omega)]
  obtain ⟨p, hp, hnm⟩ := hex
  have hs : (room.players.find? (fun q => normalize q.name == normalize pn)).isSome := by
    rw [List.find?_isSome]
    exact ⟨p, hp, by simp [hnm]⟩
  obtain ⟨q, hq⟩ := Option.isSome_iff_exists.mp hs
  simp only [hq]

/-- Witness for the C3 amendment: rejoining the one-seat room as
`" ALICE "` (same name up to trim and case) returns the stored room
unchanged. -/
theorem join_reconnect_idempotent_witness :
    (∃ p ∈ oneRoom.players, normalize p.name = normalize " ALICE ") ∧
    handleJoin oneStore "cd" " ALICE " none 9 = (oneStore, .ok oneRoom) :=
  ⟨⟨alice, by decide, by decide⟩,
   join_reconnect_idempotent oneStore "cd" " ALICE " none 9 oneRoom (by decide)
     (by decide) (by decide) ⟨alice, by decide, by decide⟩⟩

/-- C7: a join against a room already holding 2 seated players fails with
`Full`, for any playerName, and the store is returned unchanged. -/
theorem join_full_rejected :
    ∀ (store : Store) (raw pn : String) (avatar : Option String) (now : Nat)
      (room : XORoom),
      getRoom store (toUpperStr raw) = some room →
      2 ≤ room.players.length →
      handleJoin store raw pn avatar now = (store, .error .full) := by
  intro store raw pn av now room hget hge
  unfold handleJoin
  simp only [hget]
  rw [if_pos hge]

/-- Witness for C7: joining the concrete full room as "carol" (addressed
through the lowercase code "ab") is rejected with `Full`. -/
theorem join_full_rejected_witness :
    handleJoin fullStore "ab" "carol" none 9 = (fullStore, .error .full) :=
  join_full_rejected fullStore "ab" "carol" none 9 fullRoom (by decide) (by decide)

/-- C4: finish on an absent roomId fails `NotFound`; on an existing
2-seat room it swaps both players' symbols to the complement, increments
`roundIndex` by exactly 1, resets the board, clears `winner` and
`lastMoveBy`, and keeps the player names and the room document (written
back under the same key). -/
theorem finish_swaps_and_resets :
    (∀ (store : Store) (roomId : String) (now : Nat),
      getRoom store roomId = none →
      handleFinish store roomId now = (store, .error .notFound)) ∧
    (∀ (store : Store) (roomId : String) (now : Nat) (room : XORoom),
      getRoom store roomId = some room →
      room.players.length = 2 →
      ∃ room',
        handleFinish store roomId now = (store.set roomId room', .ok room') ∧
        room'.players.map (fun p => p.name) = room.players.map (fun p => p.name) ∧
        room'.players.map (fun p => p.symbol)
          = room.players.map (fun p => p.symbol.flip) ∧
        room'.roundIndex = room.roundIndex + 1 ∧
        room'.board = initialBoard ∧
        room'.turn = Sym.X ∧
        room'.winner = none ∧
        room'.lastMoveBy = none ∧
        room'.roomId = room.roomId) := by
  constructor
  · intro store roomId now h
    unfold handleFinish
    simp only [h]
  · intro store roomId now room hget _hlen
    have hget' : store roomId = some room := hget
    unfold handleFinish
    simp only [hget, updateRoom, hget']
    refine ⟨_, rfl, ?_, ?_, rfl, rfl, rfl, rfl, rfl, rfl⟩
    · rw [List.map_map]
      rfl
    · rw [List.map_map]
      rfl

/-- Witness for C4: finishing the unknown room "ZZ" is NotFound, and
finishing the concrete 2-seat room produces the swapped/reset document. -/
theorem finish_swaps_and_resets_witness :
    handleFinish emptyStore "ZZ" 9 = (emptyStore, .error .notFound) ∧
    ∃ room',
      handleFinish fullStore "AB" 9 = (fullStore.set "AB" room', .ok room') ∧
      room'.players.map (fun p => p.name)
        = fullRoom.players.map (fun p => p.name) ∧
      room'.players.map (fun p => p.symbol)
        = fullRoom.players.map (fun p => p.symbol.flip) ∧
      room'.roundIndex = fullRoom.roundIndex + 1 ∧
      room'.board = initialBoard ∧
      room'.turn = Sym.X ∧
      room'.winner = none ∧
      room'.lastMoveBy = none ∧
      room'.roomId = fullRoom.roomId :=
  ⟨finish_swaps_and_resets.1 emptyStore "ZZ" 9 rfl,
   finish_swaps_and_resets.2 fullStore "AB" 9 fullRoom rfl (by decide)⟩

/-- C5: re-creating an existing roomId preserves its `roundIndex` and
seats the creator by round parity — `"X"` on an even round, `"O"` on an
odd round; a fresh roomId starts at `roundIndex` 0 with the creator on
`"X"`. -/
theorem create_preserves_roundIndex_parity :
    (∀ (store : Store) (raw pn : String) (avatar : Option String) (now : Nat)
      (old : XORoom),
      getRoom store (toUpperStr raw) = some old →
      (handleCreate store raw pn avatar now).2.roundIndex = old.roundIndex ∧
      (handleCreate store raw pn avatar now).2.players
        = [{ name := pn,
             symbol := if old.roundIndex % 2 = 0 then Sym.X else Sym.O,
             avatar := avatar }]) ∧
    (∀ (store : Store) (raw pn : String) (avatar : Option String) (now : Nat),
      getRoom store (toUpperStr raw) = none →
      (handleCreate store raw pn avatar now).2.roundIndex = 0 ∧
      (handleCreate store raw pn avatar now).2.players
        = [{ name := pn, symbol := Sym.X, avatar := avatar }]) := by
  constructor
  · intro store raw pn av now old hget
    unfold handleCreate createRoom
    simp [hget]
  · intro store raw pn av now hget
    unfold handleCreate createRoom
    simp [hget]

/-- Witness for C5: re-creating the round-1 room seats the creator on
`"O"` (the spec's seat-rotation test), and creating in the empty store
starts at round 0. -/
theorem create_preserves_roundIndex_parity_witness :
    (handleCreate roundOneStore "r1" "carol" none 9).2.roundIndex = 1 ∧
    (handleCreate roundOneStore "r1" "carol" none 9).2.players
      = [{ name := "carol", symbol := Sym.O, avatar := none }] ∧
    (handleCreate emptyStore "zz" "dana" none 9).2.roundIndex = 0 := by
  have h1 := create_preserves_roundIndex_parity.1 roundOneStore "r1" "carol" none 9
    roundOneRoom (by decide)
  have h2 := create_preserves_roundIndex_parity.2 emptyStore "zz" "dana" none 9 rfl
  exact ⟨h1.1, by simpa using h1.2, h2.1⟩

/-- C9 amended: create and join key the store by the uppercased roomId
(codes differing only in case address the same document), but move and
finish key it by the caller-supplied roomId verbatim (see the
counterexample). -/
theorem roomId_case_normalization :
    ∀ (store : Store) (raw1 raw2 pn : String) (avatar : Option String) (now : Nat),
      toUpperStr raw1 = toUpperStr raw2 →
      handleCreate store raw1 pn avatar now = handleCreate store raw2 pn avatar now ∧
      handleJoin store raw1 pn avatar now = handleJoin store raw2 pn avatar now := by
  intro store raw1 raw2 pn av now h
  constructor
  · unfold handleCreate
    rw [h]
  · unfold handleJoin
    rw [h]

/-- Witness for the C9 amendment: "ab" and "Ab" behave identically for
create and join against the concrete store. -/
theorem roomId_case_normalization_witness :
    toUpperStr "ab" = toUpperStr "Ab" ∧
    handleCreate fullStore "ab" "carol" none 9
      = handleCreate fullStore "Ab" "carol" none 9 ∧
    handleJoin fullStore "ab" "carol" none 9
      = handleJoin fullStore "Ab" "carol" none 9 :=
  ⟨by decide,
   (roomId_case_normalization fullStore "ab" "Ab" "carol" none 9 (by decide)).1,
   (roomId_case_normalization fullStore "ab" "Ab" "carol" none 9 (by decide)).2⟩

/-- C9 counterexample: the room is stored under "AB", yet move and finish
with the code "ab" fail `NotFound` while the same calls with "AB"
succeed — the two spellings do not address the same document, so the
claimed uppercase normalization does not happen for move and finish. -/
theorem move_finish_no_normalization :
    (handleMove fullStore "ab" 0 0 "alice" 9).2 = .error .notFound ∧
    (handleMove fullStore "AB" 0 0 "alice" 9).2 ≠ .error .notFound ∧
    (handleFinish fullStore "ab" 9).2 = .error .notFound ∧
    (handleFinish fullStore "AB" 9).2 ≠ .error .notFound := by
  refine ⟨by decide, by decide, by decide, by decide⟩

/-- C10: re-creating an existing roomId replaces the stored roster with
the single creator entry (any second player is dropped), preserves the
document's original `createdAt`, refreshes `updatedAt` to the call time,
and stores the result under the (uppercased) key. -/
theorem create_replaces_roster :
    ∀ (store : Store) (raw pn : String) (avatar : Option String) (now : Nat)
      (old : XORoom),
      getRoom store (toUpperStr raw) = some old →
      (handleCreate store raw pn avatar now).2.players.map (fun p => p.name)
        = [pn] ∧
      (handleCreate store raw pn avatar now).2.createdAt = old.createdAt ∧
      (handleCreate store raw pn avatar now).2.updatedAt = now ∧
      (handleCreate store raw pn avatar now).1 (toUpperStr raw)
        = some (handleCreate store raw pn avatar now).2 := by
  intro store raw pn av now old hget
  have hget' : store (toUpperStr raw) = some old := hget
  unfold handleCreate createRoom
  simp [hget, hget', Store.set]

/-- Witness for C10: re-creating "AB" (via the code "ab") as "carol"
drops the previously seated alice and bob, keeps `createdAt` 0, and sets
`updatedAt` to the call time 9. -/
theorem create_replaces_roster_witness :
    (handleCreate fullStore "ab" "carol" none 9).2.players.map (fun p => p.name)
      = ["carol"] ∧
    (handleCreate fullStore "ab" "carol" none 9).2.createdAt = fullRoom.createdAt ∧
    (handleCreate fullStore "ab" "carol" none 9).2.updatedAt = 9 :=
  ⟨(create_replaces_roster fullStore "ab" "carol" none 9 fullRoom (by decide)).1,
   (create_replaces_roster fullStore "ab" "carol" none 9 fullRoom (by decide)).2.1,
   (create_replaces_roster fullStore "ab" "carol" none 9 fullRoom (by decide)).2.2.1⟩

end XO
